import Mathlib

/-!
Verification of the watcher/supervisor engine of `src/watcher/watcher.ts`.

Strings are modelled as Lean `String` (a list of characters); paths and
patterns are opaque strings.  Machine-external primitives (the glob
matcher for a single pattern, JavaScript `RegExp.test`) are abstract
`String -> String -> Bool` parameters.  The child process handle is the
record of the mutable flags the supervisor reads and writes
(`exited`, `stopping`, `respawn`, `connected`); side effects such as
`disconnect()` and `sendSigterm` are recorded in explicit effect values
rather than performed.
-/

namespace Nexus

/-- Mutable flags of the runner child process handle (`Process` in
`src/watcher/types`): `exited`, `stopping` and `respawn` start out
undefined (falsy); `connected` is Node's channel state, tri-state
undefined / true / false, modelled as `Option Bool`. -/
structure ProcessState where
  exited : Bool
  stopping : Bool
  respawn : Bool
  connected : Option Bool
deriving Repr, DecidableEq

/-- Observable side effects of one `stopRunner` call: whether
`child.disconnect()` was invoked and whether a SIGTERM was dispatched to
the process tree (`sendSigterm`). -/
structure StopEffects where
  disconnected : Bool
  sigtermSent : Bool
deriving Repr, DecidableEq

/-- Embedding of `stopRunner(child, willTerminate)`
(watcher.ts lines 165-194).  A missing `willTerminate` argument is the
falsy `undefined`, modelled as `false`.  Returns the updated flags
together with the effects performed. -/
def stopRunner (child : ProcessState) (willTerminate : Bool) :
    ProcessState × StopEffects :=
  if child.exited = true ∨ child.stopping = true then
    (child, ⟨false, false⟩)
  else
    let child' : ProcessState :=
      { child with stopping := true, respawn := true }
    if child.connected = none ∨ child.connected = some true then
      (child', ⟨true, !willTerminate⟩)
    else
      (child', ⟨false, false⟩)

/-- Embedding of the `child.on('exit', (code, signal) => ...)` handler
(watcher.ts lines 341-361).  `Except.error c` models
`process.exit(code ?? 1)`: the whole supervisor session terminates with
exit code `c`; `Except.ok` returns the updated child flags. -/
def onChildExit (child : ProcessState) (code : Option Int) :
    Except Int ProcessState :=
  if child.exited = true then .ok child
  else if child.respawn = false then .error (code.getD 1)
  else .ok { child with exited := true }

/-- Embedding of the spawn in `startRunner` (watcher.ts lines 270-299,
363-365): fresh flags, `respawn` set from `cfg.respawn`, IPC channel
connected after `fork`. -/
def spawnProcess (cfgRespawn : Bool) : ProcessState :=
  { exited := false, stopping := false, respawn := cfgRespawn,
    connected := some true }

/-- Supervisor-level state of `createWatcher` (watcher.ts lines 18-229):
the pause flag of the chokidar watcher, the restart-dedup flag
`runnerRestarting`, the current runner's flags, whether `restartRunner`
has registered its one-shot `runner.on('exit', ...)` listener, and
counters of the observable actions taken. -/
structure SupState where
  watcherPaused : Bool
  runnerRestarting : Bool
  runner : ProcessState
  restartOnExit : Bool
  spawnCount : Nat
  stopCalls : Nat
  listenerRegs : Nat
  compileCalls : Nat
  readyEvents : Nat
deriving Repr, DecidableEq

/-- Embedding of `restartRunner(file)` (watcher.ts lines 196-228):
pause the watcher, compile the changed file, and unless a restart is
already in flight either defer the respawn to the runner's exit (live
runner: register the exit listener, then `stopRunner(runner)`) or spawn
immediately (runner already exited). -/
def restartRunner (cfgRespawn : Bool) (s : SupState) (_file : String) :
    SupState :=
  let s := { s with watcherPaused := true,
                    compileCalls := s.compileCalls + 1 }
  if s.runnerRestarting = true then
    s
  else
    let s := { s with runnerRestarting := true }
    if s.runner.exited = false then
      let s := { s with restartOnExit := true,
                        listenerRegs := s.listenerRegs + 1 }
      { s with runner := (stopRunner s.runner false).1,
               stopCalls := s.stopCalls + 1 }
    else
      { s with runner := spawnProcess cfgRespawn,
               spawnCount := s.spawnCount + 1,
               runnerRestarting := false }

/-- Embedding of the delivery of the current runner's OS exit event:
first the `child.on('exit')` handler registered in `startRunner` runs
(possibly terminating the whole session), then, if `restartRunner`
registered its one-shot listener, the replacement runner is spawned and
`runnerRestarting` is cleared (watcher.ts lines 218-221, 341-361). -/
def exitStep (cfgRespawn : Bool) (s : SupState) (code : Option Int) :
    Except Int SupState :=
  match onChildExit s.runner code with
  | .error c => .error c
  | .ok r' =>
    let s := { s with runner := r' }
    if s.restartOnExit = true then
      .ok { s with runner := spawnProcess cfgRespawn,
                   restartOnExit := false,
                   spawnCount := s.spawnCount + 1,
                   runnerRestarting := false }
    else
      .ok s

/-- Embedding of the `SERVER_READY_SIGNAL` IPC handler (watcher.ts
lines 412-421): resume the watcher and emit the readiness event. -/
def readyStep (s : SupState) : SupState :=
  { s with watcherPaused := false, readyEvents := s.readyEvents + 1 }

/-- Outcome of the shutdown path: no signal was sent (runner already
exited), or SIGTERM was delivered to the runner's process tree and the
delivery promise fulfilled, or the delivery failed and the failure was
logged.  In every case the session promise is resolved afterwards
(the signal handlers chain `stopRunnerOnBeforeExit().then(resolve)`). -/
inductive ShutdownTrace where
  | noSignal
  | signalCompleted
  | signalFailed
deriving Repr, DecidableEq

/-- Embedding of `stopRunnerOnBeforeExit` (watcher.ts lines 148-163):
if the runner has exited, resolve immediately without a signal;
otherwise send SIGTERM to the runner's process tree, `deliveryOk`
telling whether the `sendSigterm` promise fulfilled or rejected (a
rejection is logged with `console.warn` and swallowed). -/
def stopRunnerOnBeforeExit (runner : ProcessState) (deliveryOk : Bool) :
    ShutdownTrace :=
  if runner.exited = true then .noSignal
  else if deliveryOk then .signalCompleted
  else .signalFailed

/-- Whether a SIGTERM was dispatched on the shutdown path. -/
def sigtermRelayed : ShutdownTrace → Bool
  | .noSignal => false
  | .signalCompleted => true
  | .signalFailed => true

/-- Whether the session's completion promise resolves after the
shutdown path: both the SIGTERM and SIGINT handlers (watcher.ts lines
125-137) call `resolve()` in the `.then` continuation, and delivery
failure was already caught, so resolution happens on every trace. -/
def sessionResolves : ShutdownTrace → Bool
  | _ => true

/-- Embedding of the JavaScript helper `isPrefixOf(value)(prefix)`
(watcher.ts lines 254-258): `value.indexOf(prefix) === 0`, i.e. the
candidate prefix starts the value. -/
def isPrefixOf (value pre : String) : Bool :=
  List.isPrefixOf pre.data value.data

/-- The literal string whose occurrences `getLevel` counts. -/
def nm : String := "node_modules"

/-- Model of JavaScript `s.lastIndexOf(sep)` on strings: the largest
index at which `sep` occurs in `s`, or `none` when it does not occur
(the TS code tests the `-1` result with `~i`). -/
def lastIndexOf (s sep : String) : Option Nat :=
  ((List.range (s.data.length + 1)).filter
    (fun i => List.isPrefixOf sep.data (s.data.drop i))).getLast?

/-- Embedding of `getPrefix(mod)` (watcher.ts lines 247-252): the path
up to and including the last occurrence of `node_modules`, or the empty
string when the path has no `node_modules` segment. -/
def getPrefix (mod : String) : String :=
  match lastIndexOf mod nm with
  | some i => ⟨mod.data.take (i + nm.data.length)⟩
  | none => ""

/-- Model of JavaScript `String.prototype.split` on a nonempty
separator, on character lists: leftmost non-overlapping occurrences of
`sep` cut the string; `acc` accumulates the current segment reversed. -/
def jsSplitAux (sep : List Char) : List Char → List Char → List (List Char)
  | acc, [] => [acc.reverse]
  | acc, c :: rest =>
    if sep ≠ [] ∧ List.isPrefixOf sep (c :: rest) then
      acc.reverse :: jsSplitAux sep [] (rest.drop (sep.length - 1))
    else
      jsSplitAux sep (c :: acc) rest
termination_by _acc s => s.length
decreasing_by
  · simp only [List.length_cons]
    have := List.length_drop (sep.length - 1) rest
    omega
  · simp only [List.length_cons]
    omega

/-- JavaScript `s.split(sep)` for nonempty `sep`, on character lists. -/
def jsSplit (s sep : List Char) : List (List Char) :=
  jsSplitAux sep [] s

/-- Number of leftmost non-overlapping occurrences of `sep` in a
string, the count that `split` separates on. -/
def countOcc (sep : List Char) : List Char → Nat
  | [] => 0
  | c :: rest =>
    if sep ≠ [] ∧ List.isPrefixOf sep (c :: rest) then
      countOcc sep (rest.drop (sep.length - 1)) + 1
    else
      countOcc sep rest
termination_by s => s.length
decreasing_by
  · simp only [List.length_cons]
    have := List.length_drop (sep.length - 1) rest
    omega
  · simp only [List.length_cons]
    omega

/-- Embedding of `getLevel(mod)` (watcher.ts lines 237-241): the
`node_modules` nesting level, `p.split('node_modules').length - 1` on
the prefix up to the last `node_modules` occurrence. -/
def getLevel (mod : String) : Nat :=
  let p := getPrefix mod
  (jsSplit p.data nm.data).length - 1

/-- The nesting-depth test of the `required` handler (watcher.ts line
400): `cfg.deps === -1 || getLevel(message.required) <= cfg.deps`. -/
def depthWithinBound (deps : Int) (path : String) : Bool :=
  deps == -1 || decide ((getLevel path : Int) ≤ deps)

/-- Embedding of the `ipc.on(child, 'required', ...)` handler
(watcher.ts lines 390-404), returning whether
`watcher.addSilently(message.required)` is invoked.  `rtest re v`
abstracts `new RegExp(re).test(v)`. -/
def onRequired (rtest : String → String → Bool) (ignore : List String)
    (deps : Int) (required : String) : Bool :=
  let isIgnored :=
    ignore.any (fun p => isPrefixOf required p) ||
    ignore.any (fun p => rtest p required)
  !isIgnored && depthWithinBound deps required

/-- True when the string's first character is `'!'` (anymatch's test
`item.charAt(0) === BANG` classifying a matcher as negated). -/
def charAt0Bang (s : String) : Bool :=
  match s.data with
  | '!' :: _ => true
  | _ => false

/-- JavaScript `s.slice(1)` (anymatch strips the leading bang). -/
def sliceFrom1 (s : String) : String :=
  ⟨s.data.drop 1⟩

/-- The `'!' + pattern` prefixing done by `createPathMatcher`. -/
def bang (s : String) : String :=
  ⟨'!' :: s.data⟩

/-- Model of the matcher aggregation of the `anymatch` library
(version 3, as depended on through chokidar 3): string matchers whose
first character is `'!'` are negated globs; the path fails if any
negated glob matches it, and otherwise succeeds iff some remaining
positive matcher matches it.  `m pat path` abstracts the single-pattern
glob primitive (picomatch). -/
def anymatch (m : String → String → Bool) (matchers : List String)
    (path : String) : Bool :=
  let negated := (matchers.filter charAt0Bang).map sliceFrom1
  let positives := matchers.filter (fun s => !charAt0Bang s)
  !(negated.any (fun p => m p path)) && positives.any (fun p => m p path)

/-- Embedding of `createPathMatcher(params)` (watcher.ts lines
428-437): allow patterns are passed through, ignore patterns are
prefixed with `'!'`, and the concatenation is handed to `anymatch`;
`none` models an absent field (`?? []`). -/
def createPathMatcher (m : String → String → Bool)
    (toMatch toIgnore : Option (List String)) (path : String) : Bool :=
  let toAllow := toMatch.getD []
  let toIgnoreB := (toIgnore.getD []).map bang
  anymatch m (toAllow ++ toIgnoreB) path

/-- Concrete single-pattern matcher (exact equality) used to exhibit
concrete behaviours of `createPathMatcher`. -/
def eqMatch (pat path : String) : Bool :=
  pat == path

/-- Concrete child fixture: freshly forked, flags undefined, channel
state unknown. -/
def freshChild : ProcessState := ⟨false, false, false, none⟩

/-- Concrete child fixture: live but with a known-disconnected IPC
channel. -/
def discChild : ProcessState := ⟨false, false, false, some false⟩

/-- Concrete child fixture: respawn-enabled, connected. -/
def respChild : ProcessState := ⟨false, false, true, some true⟩

/-- Concrete child fixture: already exited. -/
def exitedChild : ProcessState := ⟨true, false, false, some false⟩

/-! ## Theorems -/

/-- Helper: the flag component of `stopRunner` does not depend on the
channel branch — a no-op if already exited or stopping, otherwise both
`stopping` and `respawn` are set. -/
theorem stopRunner_fst (c : ProcessState) (w : Bool) :
    (stopRunner c w).1 =
      if c.exited = true ∨ c.stopping = true then c
      else { c with stopping := true, respawn := true } := by
  unfold stopRunner
  split
  · rfl
  · split <;> rfl

/-- C4: Stop idempotence — `stopRunner` applied a second time to the
flag state produced by a first call changes no flags, performs no
disconnect and sends no termination signal, for every initial child
state and every pair of `willTerminate` arguments. -/
theorem stopRunner_idempotent (c : ProcessState) (w1 w2 : Bool) :
    stopRunner (stopRunner c w1).1 w2 =
      ((stopRunner c w1).1, ⟨false, false⟩) := by
  rw [stopRunner_fst]
  by_cases h : c.exited = true ∨ c.stopping = true
  · rw [if_pos h]
    unfold stopRunner
    rw [if_pos h]
  · rw [if_neg h]
    unfold stopRunner
    simp

/-- C3 is refuted: a child that is neither exited nor stopping but whose
channel is already known-disconnected (`connected === false`) receives
no termination signal from `stopRunner(child, false)`, although the
claim requires a signal whenever `willTerminate` is false. -/
theorem stopRunner_signal_policy_cex :
    discChild.exited = false ∧ discChild.stopping = false ∧
    (stopRunner discChild false).2.sigtermSent = false := by
  decide

/-- C3 (amended): for a child neither exited nor stopping, `stopRunner`
always sets the bookkeeping flags `stopping` and `respawn`; it
disconnects the channel iff the channel is connected or in the unknown
start state; it sends SIGTERM to the process tree iff additionally
`willTerminate` is false; and with `willTerminate` true no signal is
ever dispatched. -/
theorem stopRunner_signal_policy (c : ProcessState) (w : Bool)
    (h1 : c.exited = false) (h2 : c.stopping = false) :
    ((stopRunner c w).1.stopping = true ∧
     (stopRunner c w).1.respawn = true) ∧
    ((stopRunner c w).2.disconnected = true ↔
      (c.connected = none ∨ c.connected = some true)) ∧
    ((stopRunner c w).2.sigtermSent = true ↔
      (w = false ∧ (c.connected = none ∨ c.connected = some true))) ∧
    (w = true → (stopRunner c w).2.sigtermSent = false) := by
  have hno : ¬(c.exited = true ∨ c.stopping = true) := by
    simp [h1, h2]
  unfold stopRunner
  rw [if_neg hno]
  by_cases hc : c.connected = none ∨ c.connected = some true
  · rw [if_pos hc]
    cases w <;> simp [hc]
  · rw [if_neg hc]
    cases w <;> simp [hc]

/-- Witness for the amended C3 theorem at a concrete fresh child with
`willTerminate = false`: flags set and SIGTERM dispatched. -/
theorem stopRunner_signal_policy_witness :
    (stopRunner freshChild false).1.stopping = true ∧
    (stopRunner freshChild false).2.sigtermSent = true := by
  refine ⟨(stopRunner_signal_policy freshChild false rfl rfl).1.1, ?_⟩
  exact (stopRunner_signal_policy freshChild false rfl rfl).2.2.1.mpr
    ⟨rfl, Or.inl rfl⟩

/-- C5: the `exited` flag is governed solely by the exit-notification
handler — `stopRunner` never changes it, a second exit notification
after `exited` is already true changes nothing, and a first
notification of a respawning child sets exactly `exited := true`. -/
theorem exited_flag_discipline (c : ProcessState) (w : Bool)
    (code : Option Int) :
    ((stopRunner c w).1.exited = c.exited) ∧
    (c.exited = true → onChildExit c code = .ok c) ∧
    (c.exited = false → c.respawn = true →
      onChildExit c code = .ok { c with exited := true }) := by
  refine ⟨?_, ?_, ?_⟩
  · rw [stopRunner_fst]
    split <;> rfl
  · intro h
    unfold onChildExit
    rw [if_pos h]
  · intro h1 h2
    unfold onChildExit
    simp [h1, h2]

/-- Witness for C5 at concrete children: stopping a fresh child leaves
`exited` false, and an exit notification on a respawning child sets it
to true. -/
theorem exited_flag_discipline_witness :
    (stopRunner freshChild false).1.exited = false ∧
    onChildExit respChild (some 0) = .ok { respChild with exited := true } := by
  refine ⟨(exited_flag_discipline freshChild false (some 0)).1, ?_⟩
  exact (exited_flag_discipline respChild false (some 0)).2.2 rfl rfl

/-- C2: an unexpected exit — runner not yet exited, no stop ever
requested, `respawn` false — with a non-null exit code terminates the
whole supervisor session with that child's exit code; no state (and in
particular no replacement spawn) results. -/
theorem unexpected_exit_fatal (cfgR : Bool) (s : SupState) (c : Int)
    (h1 : s.runner.exited = false) (_h2 : s.runner.stopping = false)
    (h3 : s.runner.respawn = false) :
    exitStep cfgR s (some c) = .error c := by
  unfold exitStep onChildExit
  simp [h1, h3]

/-- Witness for C2: a session whose runner was spawned with
`cfg.respawn` false terminates with exit code 1 when the child exits
with code 1. -/
theorem unexpected_exit_fatal_witness :
    exitStep false ⟨false, false, spawnProcess false, false, 0, 0, 0, 0, 0⟩
      (some 1) = .error 1 :=
  unexpected_exit_fatal false _ 1 rfl rfl rfl

/-- C9: on an external SIGTERM or SIGINT, the supervisor relays SIGTERM
to the runner's process tree iff the runner has not already exited; an
already-exited runner yields immediate resolution with no signal; and
the session's completion promise resolves on every trace, whether the
signal delivery completed or failed (failure is logged, not
escalated). -/
theorem shutdown_sequencing (r : ProcessState) (ok : Bool) :
    (r.exited = true →
      stopRunnerOnBeforeExit r ok = .noSignal ∧
      sigtermRelayed (stopRunnerOnBeforeExit r ok) = false) ∧
    (r.exited = false →
      sigtermRelayed (stopRunnerOnBeforeExit r ok) = true ∧
      stopRunnerOnBeforeExit r ok =
        (if ok = true then .signalCompleted else .signalFailed)) ∧
    sessionResolves (stopRunnerOnBeforeExit r ok) = true := by
  refine ⟨?_, ?_, ?_⟩
  · intro h
    unfold stopRunnerOnBeforeExit
    rw [if_pos h]
    exact ⟨rfl, rfl⟩
  · intro h
    unfold stopRunnerOnBeforeExit
    simp only [h]
    cases ok <;> simp [sigtermRelayed]
  · unfold sessionResolves
    rfl

/-- Witness for C9: a live runner gets the SIGTERM relay; an exited
runner resolves with no signal. -/
theorem shutdown_sequencing_witness :
    sigtermRelayed (stopRunnerOnBeforeExit freshChild true) = true ∧
    stopRunnerOnBeforeExit exitedChild false = .noSignal := by
  refine ⟨((shutdown_sequencing freshChild true).2.1 rfl).1, ?_⟩
  exact ((shutdown_sequencing exitedChild false).1 rfl).1

/-- Helper: a change event arriving while a restart is already in
flight only pauses the watcher and compiles the changed file — no flag
change, no stop, no listener registration, no spawn. -/
theorem restartRunner_coalesced (cfgR : Bool) (s : SupState) (f : String)
    (h : s.runnerRestarting = true) :
    restartRunner cfgR s f =
      { s with watcherPaused := true,
               compileCalls := s.compileCalls + 1 } := by
  unfold restartRunner
  simp [h]

/-- Helper: any burst of change events delivered while a restart is in
flight (watcher already paused) leaves the whole supervisor state
unchanged except for the per-event compilations. -/
theorem foldl_coalesced (cfgR : Bool) (fs : List String) (s : SupState)
    (h1 : s.runnerRestarting = true) (h2 : s.watcherPaused = true) :
    fs.foldl (restartRunner cfgR) s =
      { s with compileCalls := s.compileCalls + fs.length } := by
  induction fs generalizing s with
  | nil => simp
  | cons f fs ih =>
    rw [List.foldl_cons, restartRunner_coalesced cfgR s f h1,
        ih { s with watcherPaused := true,
                    compileCalls := s.compileCalls + 1 } h1 rfl]
    obtain ⟨wp, rr, run, roe, sc, stc, lr, cc, re⟩ := s
    simp_all
    omega

/-- Helper: a change event arriving with no restart in flight and a
live (not yet exited) runner pauses the watcher, sets the in-flight
flag, registers the one-shot exit listener and issues one stop. -/
theorem restartRunner_live (cfgR : Bool) (s : SupState) (f : String)
    (h1 : s.runnerRestarting = false) (h2 : s.runner.exited = false) :
    restartRunner cfgR s f =
      { s with watcherPaused := true,
               compileCalls := s.compileCalls + 1,
               runnerRestarting := true,
               restartOnExit := true,
               listenerRegs := s.listenerRegs + 1,
               runner := (stopRunner s.runner false).1,
               stopCalls := s.stopCalls + 1 } := by
  unfold restartRunner
  simp [h1, h2]

/-- C1: restart coalescing — starting from a state with no restart in
flight and a live runner, one triggering change event followed by any
burst of N further change events delivered while the restart is in
flight issues exactly one stop and registers exactly one exit listener
(the coalesced events add neither), spawns nothing directly, and the
eventual exit of the old runner produces exactly one replacement
spawn in total. -/
theorem restart_coalescing (cfgR : Bool) (s : SupState) (f : String)
    (fs : List String) (code : Option Int)
    (h1 : s.runnerRestarting = false) (h2 : s.runner.exited = false)
    (h3 : s.runner.stopping = false) :
    (fs.foldl (restartRunner cfgR) (restartRunner cfgR s f)).spawnCount
        = s.spawnCount ∧
    (fs.foldl (restartRunner cfgR) (restartRunner cfgR s f)).stopCalls
        = s.stopCalls + 1 ∧
    (fs.foldl (restartRunner cfgR) (restartRunner cfgR s f)).listenerRegs
        = s.listenerRegs + 1 ∧
    ∃ s3, exitStep cfgR (fs.foldl (restartRunner cfgR) (restartRunner cfgR s f))
        code = .ok s3 ∧ s3.spawnCount = s.spawnCount + 1 := by
  have hstop : (stopRunner s.runner false).1 =
      { s.runner with stopping := true, respawn := true } := by
    rw [stopRunner_fst, if_neg (by simp [h2, h3])]
  have hs1 : restartRunner cfgR s f =
      { s with watcherPaused := true,
               compileCalls := s.compileCalls + 1,
               runnerRestarting := true,
               restartOnExit := true,
               listenerRegs := s.listenerRegs + 1,
               runner := { s.runner with stopping := true, respawn := true },
               stopCalls := s.stopCalls + 1 } := by
    rw [restartRunner_live cfgR s f h1 h2, hstop]
  have hfold : fs.foldl (restartRunner cfgR) (restartRunner cfgR s f) =
      { s with watcherPaused := true,
               compileCalls := s.compileCalls + 1 + fs.length,
               runnerRestarting := true,
               restartOnExit := true,
               listenerRegs := s.listenerRegs + 1,
               runner := { s.runner with stopping := true, respawn := true },
               stopCalls := s.stopCalls + 1 } := by
    rw [hs1]
    exact foldl_coalesced cfgR fs _ rfl rfl
  rw [hfold]
  refine ⟨rfl, rfl, rfl, ?_⟩
  unfold exitStep onChildExit
  simp [h2]

/-- C8: pause/resume symmetry — a restart cycle beginning unpaused with
no restart in flight (file change, then the old runner's exit, then the
new child's Ready message) pauses the watcher at the trigger, completes
without error, and the Ready handler resumes it, ending in the same
unpaused state as before the trigger while emitting a readiness
event. -/
theorem pause_resume_symmetry (cfgR : Bool) (s : SupState) (f : String)
    (code : Option Int)
    (h0 : s.watcherPaused = false) (h1 : s.runnerRestarting = false)
    (h2 : s.runner.exited = false) (h3 : s.runner.stopping = false) :
    (restartRunner cfgR s f).watcherPaused = true ∧
    ∃ s3, exitStep cfgR (restartRunner cfgR s f) code = .ok s3 ∧
      s3.watcherPaused = true ∧
      (readyStep s3).watcherPaused = false ∧
      (readyStep s3).watcherPaused = s.watcherPaused ∧
      (readyStep s3).readyEvents = s3.readyEvents + 1 := by
  have hstop : (stopRunner s.runner false).1 =
      { s.runner with stopping := true, respawn := true } := by
    rw [stopRunner_fst, if_neg (by simp [h2, h3])]
  have hs1 : restartRunner cfgR s f =
      { s with watcherPaused := true,
               compileCalls := s.compileCalls + 1,
               runnerRestarting := true,
               restartOnExit := true,
               listenerRegs := s.listenerRegs + 1,
               runner := { s.runner with stopping := true, respawn := true },
               stopCalls := s.stopCalls + 1 } := by
    rw [restartRunner_live cfgR s f h1 h2, hstop]
  rw [hs1]
  refine ⟨rfl, ?_⟩
  unfold exitStep onChildExit
  simp [h2, readyStep, h0]

/-- Concrete supervisor fixture: unpaused, no restart in flight, live
respawning runner, all counters zero. -/
def supFixture : SupState := ⟨false, false, respChild, false, 0, 0, 0, 0, 0⟩

/-- Witness for C1 at a concrete burst of three change events: the two
coalesced events spawn nothing, and the old runner's exit produces the
single replacement spawn. -/
theorem restart_coalescing_witness :
    (["b", "c"].foldl (restartRunner true) (restartRunner true supFixture "a")).spawnCount = 0 ∧
    ∃ s3, exitStep true
        (["b", "c"].foldl (restartRunner true) (restartRunner true supFixture "a"))
        none = .ok s3 ∧ s3.spawnCount = 1 := by
  obtain ⟨hA, _hB, _hC, hD⟩ :=
    restart_coalescing true supFixture "a" ["b", "c"] none rfl rfl rfl
  exact ⟨hA, hD⟩

/-- Witness for C8 at a concrete cycle: pause on trigger, successful
exit-and-respawn, unpaused after Ready. -/
theorem pause_resume_symmetry_witness :
    (restartRunner true supFixture "a").watcherPaused = true ∧
    ∃ s3, exitStep true (restartRunner true supFixture "a") none = .ok s3 ∧
      (readyStep s3).watcherPaused = false := by
  obtain ⟨hA, s3, hB, _hC, hD, _hE, _hF⟩ :=
    pause_resume_symmetry true supFixture "a" none rfl rfl rfl rfl
  exact ⟨hA, s3, hB, hD⟩

/-- C7: a `required` message's path is silently added to the watched
set iff no configured ignore entry is a prefix of it, no ignore entry
matches it as a regular expression, and its `node_modules` nesting
level is within the configured bound (`deps = -1` meaning unlimited). -/
theorem required_path_filter (rtest : String → String → Bool)
    (ignore : List String) (deps : Int) (path : String) :
    onRequired rtest ignore deps path = true ↔
      ((¬ ∃ p ∈ ignore, isPrefixOf path p = true) ∧
       (¬ ∃ p ∈ ignore, rtest p path = true) ∧
       (deps = -1 ∨ (getLevel path : Int) ≤ deps)) := by
  unfold onRequired depthWithinBound
  simp only [List.any_eq_true, Bool.and_eq_true, Bool.or_eq_true,
    Bool.not_eq_true', Bool.or_eq_false_iff, beq_iff_eq, decide_eq_true_eq,
    List.any_eq_false, Bool.not_eq_true]
  constructor
  · rintro ⟨⟨hp, hr⟩, hd⟩
    refine ⟨?_, ?_, hd⟩
    · rintro ⟨p, hmem, hmatch⟩
      exact absurd hmatch (by simp [hp p hmem])
    · rintro ⟨p, hmem, hmatch⟩
      exact absurd hmatch (by simp [hr p hmem])
  · rintro ⟨hp, hr, hd⟩
    refine ⟨⟨?_, ?_⟩, hd⟩
    · intro p hmem
      by_contra hcon
      exact hp ⟨p, hmem, by simpa using hcon⟩
    · intro p hmem
      by_contra hcon
      exact hr ⟨p, hmem, by simpa using hcon⟩

/-- Witness for C7: with no ignore rules and unlimited depth, a
required path is added. -/
theorem required_path_filter_witness :
    onRequired (fun _ _ => false) [] (-1) "x" = true :=
  (required_path_filter (fun _ _ => false) [] (-1) "x").mpr
    ⟨by simp, by simp, Or.inl rfl⟩

/-- Helper: the negated side of the matcher list built by
`createPathMatcher` recovers exactly the ignore patterns. -/
theorem matcher_negated_eq (allow ignore : List String)
    (hallow : ∀ p ∈ allow, charAt0Bang p = false) :
    ((allow ++ ignore.map bang).filter charAt0Bang).map sliceFrom1
      = ignore := by
  rw [List.filter_append]
  have h1 : allow.filter charAt0Bang = [] := by
    rw [List.filter_eq_nil_iff]
    intro p hp
    simp [hallow p hp]
  have h2 : (ignore.map bang).filter charAt0Bang = ignore.map bang := by
    rw [List.filter_eq_self]
    intro p hp
    obtain ⟨q, _, rfl⟩ := List.mem_map.mp hp
    rfl
  rw [h1, h2, List.nil_append, List.map_map]
  have : sliceFrom1 ∘ bang = id := funext fun p => rfl
  rw [this, List.map_id]

/-- Helper: the positive side of the matcher list built by
`createPathMatcher` is exactly the allow patterns. -/
theorem matcher_positives_eq (allow ignore : List String)
    (hallow : ∀ p ∈ allow, charAt0Bang p = false) :
    (allow ++ ignore.map bang).filter (fun s => !charAt0Bang s)
      = allow := by
  rw [List.filter_append]
  have h1 : allow.filter (fun s => !charAt0Bang s) = allow := by
    rw [List.filter_eq_self]
    intro p hp
    simp [hallow p hp]
  have h2 : (ignore.map bang).filter (fun s => !charAt0Bang s) = [] := by
    rw [List.filter_eq_nil_iff]
    intro p hp
    obtain ⟨q, _, rfl⟩ := List.mem_map.mp hp
    simp [charAt0Bang, bang]
  rw [h1, h2, List.append_nil]

/-- C6 is refuted on its permissive-default part: with an empty allow
list and ignore list `["a"]`, the path `"b"` matches no ignore pattern,
yet the matcher rejects it — anymatch with no positive pattern matches
no path at all. -/
theorem createPathMatcher_empty_allow_cex :
    eqMatch "a" "b" = false ∧
    createPathMatcher eqMatch (some []) (some ["a"]) "b" = false := by
  decide

/-- C6 (amended): for allow patterns that do not themselves begin with
the negation character, a path tests true iff it matches some allow
pattern and matches no ignore pattern; consequently with an empty allow
list the matcher rejects every path — the claimed permissive default
does not hold on the code. -/
theorem createPathMatcher_semantics (m : String → String → Bool)
    (allow ignore : List String) (path : String)
    (hallow : ∀ p ∈ allow, charAt0Bang p = false) :
    (createPathMatcher m (some allow) (some ignore) path = true ↔
      ((∃ p ∈ allow, m p path = true) ∧ ¬ ∃ p ∈ ignore, m p path = true)) ∧
    (allow = [] →
      createPathMatcher m (some allow) (some ignore) path = false) := by
  have hkey : createPathMatcher m (some allow) (some ignore) path =
      (!(ignore.any fun p => m p path) && (allow.any fun p => m p path)) := by
    simp only [createPathMatcher, anymatch, Option.getD_some]
    rw [matcher_negated_eq allow ignore hallow,
        matcher_positives_eq allow ignore hallow]
  constructor
  · rw [hkey]
    simp only [Bool.and_eq_true, Bool.not_eq_true', List.any_eq_true,
      List.any_eq_false, Bool.not_eq_true]
    constructor
    · rintro ⟨hno, hyes⟩
      refine ⟨hyes, ?_⟩
      rintro ⟨p, hmem, hmatch⟩
      exact absurd hmatch (by simp [hno p hmem])
    · rintro ⟨hyes, hno⟩
      refine ⟨?_, hyes⟩
      intro p hmem
      by_contra hcon
      exact hno ⟨p, hmem, by simpa using hcon⟩
  · intro hempty
    subst hempty
    rw [hkey]
    simp

/-- Witness for the amended C6 theorem: path `"a"` matches the allow
pattern `"a"` and no ignore pattern, so it tests true. -/
theorem createPathMatcher_semantics_witness :
    createPathMatcher eqMatch (some ["a"]) (some ["b"]) "a" = true := by
  have h := (createPathMatcher_semantics eqMatch ["a"] ["b"] "a"
    (by decide)).1
  exact h.mpr ⟨⟨"a", by simp, by decide⟩, by decide⟩

/-- Helper: a `jsSplitAux` run produces one more segment than the
number of separator occurrences it cuts at. -/
theorem jsSplitAux_length (sep : List Char) :
    ∀ (n : Nat) (s acc : List Char), s.length ≤ n →
      (jsSplitAux sep acc s).length = countOcc sep s + 1 := by
  intro n
  induction n with
  | zero =>
    intro s acc hs
    have hnil : s = [] := List.length_eq_zero.mp (Nat.le_zero.mp hs)
    subst hnil
    simp [jsSplitAux, countOcc]
  | succ n ih =>
    intro s acc hs
    cases s with
    | nil => simp [jsSplitAux, countOcc]
    | cons c rest =>
      by_cases hc : sep ≠ [] ∧ List.isPrefixOf sep (c :: rest)
      · simp only [jsSplitAux, countOcc, if_pos hc, List.length_cons]
        have hlen : (rest.drop (sep.length - 1)).length ≤ n := by
          have h1 := List.length_drop (sep.length - 1) rest
          simp only [List.length_cons] at hs
          omega
        rw [ih (rest.drop (sep.length - 1)) [] hlen]
      · simp only [jsSplitAux, countOcc, if_neg hc]
        apply ih rest (c :: acc)
        simp only [List.length_cons] at hs
        omega

/-- C10: `getLevel` returns the number of `node_modules` occurrences in
the prefix of the path up to and including its last occurrence; for a
path with no `node_modules` occurrence at any position it returns 0,
and such a path passes the `required`-handler depth filter for every
configured `deps ≥ 0`. -/
theorem getLevel_spec (mod : String) :
    getLevel mod = countOcc nm.data ( getPrefix mod).data ∧
    ((∀ i ≤ mod.data.length,
        ¬ List.isPrefixOf nm.data (mod.data.drop i) = true) →
      getLevel mod = 0 ∧
      ∀ deps : Int, 0 ≤ deps → depthWithinBound deps mod = true) := by
  have hpart1 : getLevel mod = countOcc nm.data ( getPrefix mod).data := by
    simp only [getLevel, jsSplit]
    rw [jsSplitAux_length nm.data ( getPrefix mod).data.length
      ( getPrefix mod).data [] le_rfl]
    omega
  refine ⟨hpart1, ?_⟩
  intro hno
  have hfilter : (List.range (mod.data.length + 1)).filter
      (fun i => List.isPrefixOf nm.data (mod.data.drop i)) = [] := by
    rw [List.filter_eq_nil_iff]
    intro i hi
    have hle : i ≤ mod.data.length := by
      have := List.mem_range.mp hi
      omega
    simpa using hno i hle
  have hlast : lastIndexOf mod nm = none := by
    unfold lastIndexOf
    rw [hfilter]
    rfl
  have hpre : getPrefix mod = "" := by
    unfold getPrefix
    rw [hlast]
  have hzero : getLevel mod = 0 := by
    rw [hpart1, hpre]
    have hdata : ("" : String).data = [] := rfl
    rw [hdata]
    simp [countOcc]
  refine ⟨hzero, ?_⟩
  intro deps hdeps
  unfold depthWithinBound
  rw [hzero]
  simp
  omega

/-- Witness for C10 at a path outside `node_modules`: nesting level 0
and the depth filter passes at bound 0. -/
theorem getLevel_spec_witness :
    getLevel "src/app.ts" = countOcc nm.data ( getPrefix "src/app.ts").data ∧
    getLevel "src/app.ts" = 0 ∧
    depthWithinBound 0 "src/app.ts" = true := by
  obtain ⟨h1, h2⟩ := getLevel_spec "src/app.ts"
  have hno : ∀ i ≤ ("src/app.ts" : String).data.length,
      ¬ List.isPrefixOf nm.data (("src/app.ts" : String).data.drop i) = true := by
    decide
  obtain ⟨h3, h4⟩ := h2 hno
  exact ⟨h1, h3, h4 0 le_rfl⟩

end Nexus
